import Mathlib

set_option autoImplicit false

/-!
Verification development for the PPanGGOLiN in-memory pangenome graph
(`ppanggolin/pangenome.py` and `ppanggolin/geneFamily.py`).

Python objects are shallowly embedded as Lean structures; Python dicts are
modelled as association lists with insertion-order semantics (assignment to an
existing key replaces the value in place, assignment to a fresh key appends);
raised exceptions are modelled with `Except String`.  Where an exception is
raised after in-place mutation has already happened, the operation returns the
mutated state together with the error.
-/

deriving instance DecidableEq for Except

namespace PPanGGOLiN

section DictModel

variable {K V : Type} [DecidableEq K]

/-- Lookup in a Python dict modelled as an association list. -/
def dLookup : List (K × V) → K → Option V
  | [], _ => none
  | kv :: t, k => if kv.1 = k then some kv.2 else dLookup t k

/-- Key-membership test for the association-list dict model. -/
def hasKey (l : List (K × V)) (k : K) : Bool :=
  l.any (fun kv => decide (kv.1 = k))

/-- Python dict assignment `d[k] = v`: replaces the value in place when the key
exists, appends a fresh entry otherwise. -/
def dInsert (l : List (K × V)) (k : K) (v : V) : List (K × V) :=
  if hasKey l k then l.map (fun kv => if kv.1 = k then (k, v) else kv)
  else l ++ [(k, v)]

end DictModel


/-! ## `pangenome.py` — `GeneFamily` partition label and `Region` border walk -/

/-- Gene-family object of `pangenome.py` as seen by the border walk: its
identity `fid` and its `partition` label string. -/
structure PFam where
  fid : Nat
  partition : String
deriving DecidableEq, Repr

/-- Python `str.startswith(pre)` as a character-list prefix test. -/
def pyStartsWith (s pre : String) : Bool :=
  pre.data.isPrefixOf s.data

/-- `GeneFamily.namedPartition` (pangenome.py lines 147-158): raises when the
partition label is unset, otherwise discriminates on the first character. -/
def PFam.namedPartition (f : PFam) : Except String String :=
  if f.partition = "" then
    Except.error "Exception: the gene family has not beed associated to a partition"
  else if pyStartsWith f.partition "P" then Except.ok "persistent"
  else if pyStartsWith f.partition "C" then Except.ok "cloud"
  else if pyStartsWith f.partition "S" then Except.ok "shell"
  else Except.ok "undefined"

/-- A gene as seen by the border walk: its `position` on its contig and its
(optionally assigned) `family`. -/
structure RGene where
  position : Nat
  family : Option PFam
deriving DecidableEq, Repr

/-- A contig: circularity flag and the ordered list of its genes. -/
structure Contig where
  is_circular : Bool
  genes : List RGene
deriving DecidableEq, Repr

/-- A Region of genomic plasticity: an ordered list of genes.  In the source
`self.contig` is `self.genes[0].contig`; the embedding stores that contig
directly on the region. -/
structure Region where
  contig : Contig
  genes : List RGene
deriving DecidableEq, Repr

/-- Python list indexing `l[i]`: non-negative indices count from the front,
negative indices from the back; out of range gives `none` (IndexError). -/
def pyGet {α : Type} (l : List α) (i : Int) : Option α :=
  if 0 ≤ i then l.get? i.toNat
  else if (-i).toNat ≤ l.length then l.get? (l.length - (-i).toNat)
  else none

/-- `curr_fam` computation of the left walk body (pangenome.py lines 67-72):
at position 0 of a circular contig the last gene is inspected, otherwise the
gene just below `pos`. -/
def leftFam (c : Contig) (pos : Int) : Except String (Option PFam) :=
  if pos = 0 then
    if c.is_circular then
      match pyGet c.genes (-1) with
      | some g => Except.ok g.family
      | none => Except.error "IndexError: list index out of range"
    else Except.ok none
  else
    match pyGet c.genes (pos - 1) with
    | some g => Except.ok g.family
    | none => Except.error "IndexError: list index out of range"

/-- Left-walk acceptance test (pangenome.py line 73), with Python
short-circuit order: the family must be non-None, not multigenic, and its
`namedPartition` (which can raise) must be exactly persistent.  Returns the
family to append, when any. -/
def leftCandidate (c : Contig) (mg : List PFam) (pos : Int) :
    Except String (Option PFam) :=
  match leftFam c pos with
  | Except.error e => Except.error e
  | Except.ok none => Except.ok none
  | Except.ok (some f) =>
    if f ∈ mg then Except.ok none
    else
      match f.namedPartition with
      | Except.error e => Except.error e
      | Except.ok np => Except.ok (if np = "persistent" then some f else none)

/-- `border[i].append(curr_fam)` when the acceptance test passed. -/
def appendCand (acc : List PFam) (cand : Option PFam) : List PFam :=
  match cand with
  | some f => acc ++ [f]
  | none => acc

/-- Position update of the left walk (pangenome.py lines 75-77): decrement,
then wrap from -1 to the contig length when the contig is circular. -/
def wrapL (c : Contig) (pos : Int) : Int :=
  if pos - 1 = -1 ∧ c.is_circular then (c.genes.length : Int) else pos - 1

/-- The left while-loop of `getBorderingGenes` (pangenome.py lines 66-79).
Note the loop guard of the source, `pos != 0 and not self.contig.is_circular`:
the loop body never runs on a circular contig.  The recursion is paced by
explicit fuel; running out of fuel reports an error value distinct from every
result the source can produce. -/
def borderLoopL (c : Contig) (n : Nat) (mg : List PFam) (init : Int) :
    Nat → Int → List PFam → Except String (List PFam)
  | 0, pos, acc =>
    if acc.length < n ∧ pos ≠ 0 ∧ c.is_circular = false then
      Except.error "fuel exhausted"
    else Except.ok acc
  | fuel' + 1, pos, acc =>
    if acc.length < n ∧ pos ≠ 0 ∧ c.is_circular = false then
      match leftCandidate c mg pos with
      | Except.error e => Except.error e
      | Except.ok cand =>
        if wrapL c pos = init then Except.ok (appendCand acc cand)
        else borderLoopL c n mg init fuel' (wrapL c pos) (appendCand acc cand)
    else Except.ok acc

/-- `curr_fam` computation of the right walk body (pangenome.py lines 84-89). -/
def rightFam (c : Contig) (pos : Int) : Except String (Option PFam) :=
  if pos = (c.genes.length : Int) - 1 then
    if c.is_circular then
      match pyGet c.genes 0 with
      | some g => Except.ok g.family
      | none => Except.error "IndexError: list index out of range"
    else Except.ok none
  else
    match pyGet c.genes (pos + 1) with
    | some g => Except.ok g.family
    | none => Except.error "IndexError: list index out of range"

/-- Right-walk acceptance test (pangenome.py line 90): the family must be
non-None and not multigenic; there is no partition requirement on this side. -/
def rightCandidate (c : Contig) (mg : List PFam) (pos : Int) :
    Except String (Option PFam) :=
  match rightFam c pos with
  | Except.error e => Except.error e
  | Except.ok none => Except.ok none
  | Except.ok (some f) => Except.ok (if f ∈ mg then none else some f)

/-- Position update of the right walk (pangenome.py lines 92-94): increment,
then wrap from the contig length to -1 when the contig is circular. -/
def wrapR (c : Contig) (pos : Int) : Int :=
  if pos + 1 = (c.genes.length : Int) ∧ c.is_circular then (-1 : Int) else pos + 1

/-- The right while-loop of `getBorderingGenes` (pangenome.py lines 83-97).
Its guard likewise contains `not self.contig.is_circular`.  The line reached
when the walk returns to its start calls `logging.getLogger()` although the
module never imports `logging`, so that path raises NameError. -/
def borderLoopR (c : Contig) (n : Nat) (mg : List PFam) (init : Int) :
    Nat → Int → List PFam → Except String (List PFam)
  | 0, pos, acc =>
    if acc.length < n ∧ pos ≠ (c.genes.length : Int) - 1 ∧ c.is_circular = false then
      Except.error "fuel exhausted"
    else Except.ok acc
  | fuel' + 1, pos, acc =>
    if acc.length < n ∧ pos ≠ (c.genes.length : Int) - 1 ∧ c.is_circular = false then
      match rightCandidate c mg pos with
      | Except.error e => Except.error e
      | Except.ok cand =>
        if wrapR c pos = init then Except.error "NameError: name logging is not defined"
        else borderLoopR c n mg init fuel' (wrapR c pos) (appendCand acc cand)
    else Except.ok acc

/-- `Region.getBorderingGenes(n, multigenics)` (pangenome.py lines 62-98).
The fuel `genes.length + n + 2` is never exhausted: both loop guards require a
non-circular contig, so `pos` moves strictly monotonically toward the loop
bound (or an IndexError is raised once `pos` leaves the valid index range). -/
def Region.getBorderingGenes (r : Region) (n : Nat) (mg : List PFam) :
    Except String (List PFam × List PFam) :=
  match r.genes.getLast? with
  | none => Except.error "IndexError: list index out of range"
  | some glast =>
    match borderLoopL r.contig n mg (glast.position : Int)
        (r.contig.genes.length + n + 2) (glast.position : Int) [] with
    | Except.error e => Except.error e
    | Except.ok leftRes =>
      match r.genes.head? with
      | none => Except.error "IndexError: list index out of range"
      | some gfirst =>
        match borderLoopR r.contig n mg (gfirst.position : Int)
            (r.contig.genes.length + n + 2) (gfirst.position : Int) [] with
        | Except.error e => Except.error e
        | Except.ok rightRes => Except.ok (leftRes, rightRes)

/-- A persistent-partition family with identity `i`. -/
def famP (i : Nat) : PFam := ⟨i, "P"⟩

/-- A cloud-partition family with identity 3. -/
def famC3 : PFam := ⟨3, "C"⟩

/-- Circular contig with 4 genes, all in persistent families. -/
def circContig : Contig :=
  ⟨true, [⟨0, some (famP 0)⟩, ⟨1, some (famP 1)⟩, ⟨2, some (famP 2)⟩, ⟨3, some (famP 3)⟩]⟩

/-- One-gene region at position 0 of the circular contig. -/
def circRegion : Region := ⟨circContig, [⟨0, some (famP 0)⟩]⟩

/-- Linear contig with 4 genes; the gene at position 3 is in a cloud family. -/
def linContig : Contig :=
  ⟨false, [⟨0, some (famP 0)⟩, ⟨1, some (famP 1)⟩, ⟨2, some (famP 2)⟩, ⟨3, some famC3⟩]⟩

/-- Region covering positions 2 and 1 of the linear contig (genes stored last
position first, as the RGP predictor does). -/
def linRegion : Region := ⟨linContig, [⟨2, some (famP 2)⟩, ⟨1, some (famP 1)⟩]⟩


/-! ## `pangenome.py` — `Edge` construction and `Pangenome.addEdge` -/

/-- A gene as seen by edge construction: object identity `gid`, its organism
and its (optionally assigned) family, both by identity. -/
structure PGene where
  gid : Nat
  org : Nat
  fam : Option Nat
deriving DecidableEq, Repr

/-- An Edge object (pangenome.py lines 100-128): its two family endpoints and
the per-organism lists of recorded gene pairs. -/
structure EdgeObj where
  source : Nat
  target : Nat
  orgPairs : List (Nat × List (Nat × Nat))
deriving DecidableEq, Repr

/-- `Edge.genePairs` (pangenome.py lines 116-118): flattens the per-organism
pair lists. -/
def EdgeObj.genePairs (e : EdgeObj) : List (Nat × Nat) :=
  (e.orgPairs.map Prod.snd).flatten

/-- Append to a `defaultdict(list)` entry (pangenome.py line 124). -/
def orgPairsAppend (l : List (Nat × List (Nat × Nat))) (org : Nat) (pr : Nat × Nat) :
    List (Nat × List (Nat × Nat)) :=
  match dLookup l org with
  | some ps => dInsert l org (ps ++ [pr])
  | none => dInsert l org [pr]

/-- `Edge.addGenes` (pangenome.py lines 120-124): raises when the two genes
are not in the same organism, otherwise records the pair under the source
gene organism. -/
def EdgeObj.addGenes (e : EdgeObj) (g1 g2 : PGene) : Except String EdgeObj :=
  if g1.org ≠ g2.org then
    Except.error "Exception: edge between two genes that are not in the same organism"
  else Except.ok { e with orgPairs := orgPairsAppend e.orgPairs g1.org (g1.gid, g2.gid) }

/-- The neighbor keys of a family edge-map dict; a family with no entry has an
empty edge map.  The dict values are shared references to edge objects, so the
state tracks the key structure only. -/
def neighborList (fe : List (Nat × List Nat)) (f : Nat) : List Nat :=
  (dLookup fe f).getD []

/-- Key effect of the dict assignment `family._edges[nb] = edge`
(pangenome.py lines 108-109): inserts the neighbor key when absent. -/
def registerNeighbor (fe : List (Nat × List Nat)) (f nb : Nat) : List (Nat × List Nat) :=
  match dLookup fe f with
  | some l => dInsert fe f (if nb ∈ l then l else l ++ [nb])
  | none => dInsert fe f [nb]

/-- The mutable state touched by `Pangenome.addEdge`: the pangenome edge
getter keyed by the frozenset of the two families, and each family edge map
(by family identity, neighbor keys only). -/
structure GraphState where
  edgeGetter : List (Finset (Option Nat) × EdgeObj)
  famEdges : List (Nat × List Nat)
deriving DecidableEq

/-- `Edge.__init__` (pangenome.py lines 101-111): checks that both genes have
families, registers the new edge symmetrically on both families edge maps
(lines 108-109), and only then calls `addGenes`, which raises when the genes
belong to two different organisms (line 122).  The edge-map mutation precedes
that check, so it persists in the state returned with the error. -/
def edgeInit (st : GraphState) (g1 g2 : PGene) : Except String EdgeObj × GraphState :=
  match g1.fam with
  | none => (Except.error "Exception: cannot create a graph without gene families", st)
  | some a =>
    match g2.fam with
    | none => (Except.error "Exception: cannot create a graph without gene families", st)
    | some b =>
      let st1 : GraphState :=
        { st with famEdges := registerNeighbor (registerNeighbor st.famEdges a b) b a }
      if g1.org ≠ g2.org then
        (Except.error "Exception: edge between two genes that are not in the same organism", st1)
      else
        (Except.ok { source := a, target := b, orgPairs := [(g1.org, [(g1.gid, g2.gid)])] }, st1)

/-- `Pangenome.addEdge` (pangenome.py lines 350-358): looks the edge getter up
by the frozenset of the two genes families; constructs a new edge when absent,
extends the existing one through `addGenes` otherwise. -/
def addEdge (st : GraphState) (g1 g2 : PGene) : Except String EdgeObj × GraphState :=
  match dLookup st.edgeGetter ({g1.fam, g2.fam} : Finset (Option Nat)) with
  | none =>
    match edgeInit st g1 g2 with
    | (Except.error e, st1) => (Except.error e, st1)
    | (Except.ok eo, st1) =>
      (Except.ok eo,
       { st1 with edgeGetter := dInsert st1.edgeGetter ({g1.fam, g2.fam} : Finset (Option Nat)) eo })
  | some e =>
    match e.addGenes g1 g2 with
    | Except.error msg => (Except.error msg, st)
    | Except.ok e2 =>
      (Except.ok e2,
       { st with edgeGetter := dInsert st.edgeGetter ({g1.fam, g2.fam} : Finset (Option Nat)) e2 })

/-! ## `pangenome.py` — `Pangenome` aggregate -/

/-- An Organism object: object identity `oid` plus its `name`. -/
structure Organism where
  oid : Nat
  name : String
deriving DecidableEq, Repr

/-- The aspects of a pangenome.py `GeneFamily` that bitset computation reads:
its name, the organisms of the family (keys of its per-organism gene cache)
and the `bitarray` attribute, absent until `mkBitarray` has run.  The xmpz bit
vector is represented by the list of positions assigned 1. -/
structure PFamily where
  famName : String
  orgs : List Organism
  bitarray : Option (List Nat)
deriving DecidableEq, Repr

/-- The `Pangenome` aggregate state used by the verified operations.  Regions
hash by object identity (`Region.__hash__` is `id`), so the region set is a
list of object identities. -/
structure Pangenome where
  orgGetter : List (String × Organism)
  famGetter : List (String × PFamily)
  orgIndex : Option (List (Organism × Nat))
  regions : List Nat
deriving DecidableEq, Repr

/-- `Pangenome.addOrganism` on an Organism instance (pangenome.py lines
323-327): the source assigns `self._orgGetter[newOrg.name] = newOrg` first and
only then compares dict sizes, raising KeyError on a duplicate name; the
overwrite is thus in place before the exception, and the returned state keeps
it. -/
def addOrganism (p : Pangenome) (newOrg : Organism) : Except String Organism × Pangenome :=
  let oldLen := p.orgGetter.length
  let getter2 := dInsert p.orgGetter newOrg.name newOrg
  let p2 := { p with orgGetter := getter2 }
  if getter2.length = oldLen then
    (Except.error "KeyError: Redondant organism name was found", p2)
  else (Except.ok newOrg, p2)

/-- Bit positions set by the loop of `mkBitarray` (pangenome.py lines
171-172): `index[org]` for each organism of the family; a missing index key
raises KeyError. -/
def orgBitsP (index : List (Organism × Nat)) : List Organism → Except String (List Nat)
  | [] => Except.ok []
  | o :: t =>
    match dLookup index o with
    | none => Except.error "KeyError: organism not in index"
    | some i =>
      match orgBitsP index t with
      | Except.error e => Except.error e
      | Except.ok rest => Except.ok (i :: rest)

/-- `GeneFamily.mkBitarray(index)` (pangenome.py lines 168-172). -/
def PFamily.mkBitarray (f : PFamily) (index : List (Organism × Nat)) :
    Except String PFamily :=
  match orgBitsP index f.orgs with
  | Except.error e => Except.error e
  | Except.ok bits => Except.ok { f with bitarray := some bits }

/-- The organism index built by `Pangenome.getIndex` (pangenome.py lines
366-371): organisms enumerated in getter order. -/
def mkIdx (p : Pangenome) : List (Organism × Nat) :=
  ((p.orgGetter.map Prod.snd).enum).map (fun io => (io.2, io.1))

/-- The family-by-family bitarray computation loop of
`computeFamilyBitarrays` (pangenome.py lines 376-377). -/
def famArraysCompute (idx : List (Organism × Nat)) :
    List (String × PFamily) → Except String (List (String × PFamily))
  | [] => Except.ok []
  | nf :: t =>
    match nf.2.mkBitarray idx with
    | Except.error e => Except.error e
    | Except.ok f2 =>
      match famArraysCompute idx t with
      | Except.error e => Except.error e
      | Except.ok rest => Except.ok ((nf.1, f2) :: rest)

/-- `Pangenome.computeFamilyBitarrays` (pangenome.py lines 373-379): when the
organism index does not exist yet, builds it and computes every family
bitarray; when it already exists, returns immediately without recomputing. -/
def computeFamilyBitarrays (p : Pangenome) : Except String Pangenome :=
  match p.orgIndex with
  | some _ => Except.ok p
  | none =>
    match famArraysCompute (mkIdx p) p.famGetter with
    | Except.error e => Except.error e
    | Except.ok fams =>
      Except.ok { p with famGetter := fams, orgIndex := some (mkIdx p) }

/-- `addRegions` argument: either a bare Region object or an iterable of
Region objects, each denoted by its object identity. -/
inductive RegionArg
  | single : Nat → RegionArg
  | iter : List Nat → RegionArg
deriving DecidableEq, Repr

/-- `Pangenome.addRegions` (pangenome.py lines 381-388).  `Region` defines
`__getitem__` but no `__iter__`, so `isinstance(regionGroup, Iterable)` is
false for a bare Region and the elif branch runs
`self.regions |= regionGroup`; the in-place set union of a Python set accepts
only another set, so a bare Region raises TypeError.  An actual iterable takes
the first branch and is unioned into the region set. -/
def addRegions (p : Pangenome) (arg : RegionArg) : Except String Pangenome :=
  match arg with
  | RegionArg.iter rs =>
    Except.ok
      { p with regions := rs.foldl (fun acc r => if r ∈ acc then acc else acc ++ [r]) p.regions }
  | RegionArg.single _ =>
    Except.error "TypeError: unsupported operand types for set in-place union"

/-! ## `geneFamily.py` — the newer `GeneFamily` model -/

namespace GF

/-- geneFamily.py gene: its ID string and its organism reference. -/
structure Gene where
  gid : String
  organism : Option Nat
deriving DecidableEq, Repr

/-- geneFamily.py `GeneFamily`, restricted to the fields its partition, bitset
and count operations read: `_genes_getter` maps gene ID to Gene, `_genePerOrg`
caches organism to the set of member genes (gene IDs here). -/
structure GeneFamily where
  name : String
  famID : Nat
  genesGetter : List (String × Gene)
  genePerOrg : List (Nat × List String)
  partition : String
deriving DecidableEq, Repr

/-- `named_partition` (geneFamily.py lines 186-203): raises ValueError when
the partition label is unset, otherwise discriminates on the first
character. -/
def named_partition (f : GeneFamily) : Except String String :=
  if f.partition = "" then
    Except.error "ValueError: the gene family has not beed associated to a partition"
  else if pyStartsWith f.partition "P" then Except.ok "persistent"
  else if pyStartsWith f.partition "C" then Except.ok "cloud"
  else if pyStartsWith f.partition "S" then Except.ok "shell"
  else Except.ok "undefined"

/-- `defaultdict(set)` insertion used when rebuilding `_genePerOrg`. -/
def orgDictAdd (d : List (Nat × List String)) (org : Nat) (gid : String) :
    List (Nat × List String) :=
  match dLookup d org with
  | some gs => dInsert d org (if gid ∈ gs then gs else gs ++ [gid])
  | none => dInsert d org [gid]

/-- The rebuild loop of `get_org_dict` (geneFamily.py lines 363-367): raises
AttributeError when a gene has no organism. -/
def buildOrgDict : List (String × Gene) → List (Nat × List String) →
    Except String (List (Nat × List String))
  | [], d => Except.ok d
  | kg :: t, d =>
    match kg.2.organism with
    | none => Except.error "AttributeError: gene is not fill with organism"
    | some org => buildOrgDict t (orgDictAdd d org kg.2.gid)

/-- `get_org_dict` (geneFamily.py lines 358-368): rebuilds the cache from the
gene getter when it is empty, returns it unchanged otherwise. -/
def get_org_dict (f : GeneFamily) : Except String (List (Nat × List String)) :=
  if f.genePerOrg.length = 0 then buildOrgDict f.genesGetter []
  else Except.ok f.genePerOrg

/-- The `organisms` property (geneFamily.py lines 232-241): the keys of the
(possibly rebuilt) per-organism cache. -/
def organisms (f : GeneFamily) : Except String (List Nat) :=
  match get_org_dict f with
  | Except.error e => Except.error e
  | Except.ok d => Except.ok (d.map Prod.fst)

/-- Bit positions set by a `for org in self.organisms` loop of `mk_bitarray`:
`index[org]` per organism; a missing index key raises KeyError. -/
def orgBits (index : List (Nat × Nat)) : List Nat → Except String (List Nat)
  | [] => Except.ok []
  | o :: t =>
    match dLookup index o with
    | none => Except.error "KeyError: organism not in index"
    | some i =>
      match orgBits index t with
      | Except.error e => Except.error e
      | Except.ok rest => Except.ok (i :: rest)

/-- `mk_bitarray(index, partition)` (geneFamily.py lines 335-356): the xmpz
bitarray is represented by the list of positions assigned 1, starting from the
all-zero `gmpy2.xmpz()` (the empty list).  A partition argument matching none
of the four recognised values falls through every branch and leaves the
bitarray zero. -/
def mk_bitarray (f : GeneFamily) (index : List (Nat × Nat)) (partitionArg : String) :
    Except String (List Nat) :=
  if partitionArg = "all" then
    match organisms f with
    | Except.error e => Except.error e
    | Except.ok os => orgBits index os
  else if partitionArg = "shell" ∨ partitionArg = "cloud" then
    match named_partition f with
    | Except.error e => Except.error e
    | Except.ok np =>
      if np = partitionArg then
        match organisms f with
        | Except.error e => Except.error e
        | Except.ok os => orgBits index os
      else Except.ok []
  else if partitionArg = "accessory" then
    match named_partition f with
    | Except.error e => Except.error e
    | Except.ok np =>
      if np = "shell" ∨ np = "cloud" then
        match organisms f with
        | Except.error e => Except.error e
        | Except.ok os => orgBits index os
      else Except.ok []
  else Except.ok []

/-- Whether the family matches a partition filter, in the words of the spec:
`all` always matches; `shell` and `cloud` match when `named_partition` equals
the filter; `accessory` matches when `named_partition` is shell or cloud. -/
def filterMatch (f : GeneFamily) (partitionArg : String) : Bool :=
  if partitionArg = "all" then true
  else if partitionArg = "shell" ∨ partitionArg = "cloud" then
    decide (named_partition f = Except.ok partitionArg)
  else if partitionArg = "accessory" then
    decide (named_partition f = Except.ok "shell") ||
      decide (named_partition f = Except.ok "cloud")
  else false

/-- The organisms that have at least one gene of the family, read directly off
the gene getter. -/
def geneOrgs (f : GeneFamily) : List Nat :=
  f.genesGetter.filterMap (fun kg => kg.2.organism)

/-- The attribute names assigned on a `GeneFamily` instance by its
constructor (geneFamily.py lines 66-77). -/
def geneFamilyInstanceAttrs : List String :=
  ["name", "ID", "_edges", "_genePerOrg", "_genes_getter", "removed",
   "sequence", "partition", "_spots", "_modules", "bitarray"]

/-- Modelled from the spec: the `MetaFeatures` mixin (ppanggolin/metadata.py,
not under src/) is the metadata capability super-class of `GeneFamily`; per
spec sections 3 and 9 it contributes metadata bookkeeping back-references
only and owns no gene storage, so it defines no `_genes` attribute. -/
def metaFeaturesHasGenesAttr : Bool := false

/-- `number_of_genes` (geneFamily.py lines 272-276) evaluates
`len(self._genes)`.  No attribute named `_genes` is ever assigned: neither by
the constructor (see `geneFamilyInstanceAttrs`) nor by any method of the
class, nor by the spec-modelled `MetaFeatures`; reading it therefore raises
AttributeError.  (`__len__`, line 87, is the one that reads
`len(self._genes_getter)`.) -/
def number_of_genes (f : GeneFamily) : Except String Nat :=
  if "_genes" ∈ geneFamilyInstanceAttrs ∨ metaFeaturesHasGenesAttr = true then
    Except.ok f.genesGetter.length
  else Except.error "AttributeError: GeneFamily object has no attribute _genes"

end GF

/-! ## Concrete instances used by witnesses and counterexamples -/

/-- Organism object 0 named A. -/
def orgA0 : Organism := ⟨0, "A"⟩

/-- A second, distinct Organism object that reuses the name A. -/
def orgA1 : Organism := ⟨1, "A"⟩

/-- Pangenome with organism A registered (object `orgA0`). -/
def pangA : Pangenome := ⟨[("A", orgA0)], [], none, []⟩

/-- Empty edge-construction state: no edges, every family edge map empty. -/
def st0 : GraphState := ⟨[], []⟩

/-- Gene 1 of organism 0, family 10. -/
def gX : PGene := ⟨1, 0, some 10⟩

/-- Gene 2 of organism 1 (a different organism), family 20. -/
def gY : PGene := ⟨2, 1, some 20⟩

/-- Gene 2 of organism 0 (same organism as `gX`), family 20. -/
def gB : PGene := ⟨2, 0, some 20⟩

/-- Family fam1, present in organism A, bitarray not yet computed. -/
def famBit : PFamily := ⟨"fam1", [orgA0], none⟩

/-- Pangenome with one organism and one family, before any index exists. -/
def pangBit : Pangenome := ⟨[("A", orgA0)], [("fam1", famBit)], none, []⟩

/-- `pangBit` after the first `computeFamilyBitarrays` call. -/
def pangBitDone : Pangenome :=
  ⟨[("A", orgA0)], [("fam1", ⟨"fam1", [orgA0], some [0]⟩)], some [(orgA0, 0)], []⟩

/-- geneFamily.py family with genes in organisms 0 and 2 (cache in sync with
the gene getter) and a persistent partition label. -/
def gfFam : GF.GeneFamily :=
  ⟨"fam", 0, [("g1", ⟨"g1", some 0⟩), ("g2", ⟨"g2", some 2⟩)],
   [(0, ["g1"]), (2, ["g2"])], "P"⟩

/-- Organism index over organisms 0, 1, 2 (bits 0, 1, 2). -/
def gfIndex : List (Nat × Nat) := [(0, 0), (1, 1), (2, 2)]

/-! ## Theorems -/

section DictLemmas

variable {K V : Type} [DecidableEq K]

theorem hasKey_cons (kv : K × V) (t : List (K × V)) (k : K) :
    hasKey (kv :: t) k = (decide (kv.1 = k) || hasKey t k) := by
  simp [hasKey]

theorem hasKey_of_dLookup_some (l : List (K × V)) (k : K) (v : V)
    (h : dLookup l k = some v) : hasKey l k = true := by
  induction l with
  | nil => simp [dLookup] at h
  | cons kv t ih =>
    rw [hasKey_cons]
    by_cases hkv : kv.1 = k
    · simp [hkv]
    · simp [dLookup, hkv] at h
      simp [hkv, ih h]

theorem dLookup_map_upd_ne (l : List (K × V)) (k k' : K) (v : V) (h : k' ≠ k) :
    dLookup (l.map (fun kv => if kv.1 = k then (k, v) else kv)) k' = dLookup l k' := by
  induction l with
  | nil => rfl
  | cons kv t ih =>
    by_cases hkv : kv.1 = k
    · have h1 : ¬ k = k' := fun hh => h hh.symm
      have h2 : ¬ kv.1 = k' := by rw [hkv]; exact h1
      simp [dLookup, hkv, h1, h2, ih]
    · by_cases hkv' : kv.1 = k'
      · simp [dLookup, hkv, hkv', h]
      · simp [dLookup, hkv, hkv', ih]

theorem dLookup_append_single_ne (l : List (K × V)) (k k' : K) (v : V) (h : k' ≠ k) :
    dLookup (l ++ [(k, v)]) k' = dLookup l k' := by
  induction l with
  | nil => simp [dLookup, Ne.symm h]
  | cons kv t ih =>
    by_cases hkv' : kv.1 = k'
    · simp [dLookup, hkv']
    · simp [dLookup, hkv', ih]

theorem dLookup_dInsert_ne (l : List (K × V)) (k k' : K) (v : V) (h : k' ≠ k) :
    dLookup (dInsert l k v) k' = dLookup l k' := by
  unfold dInsert
  by_cases hk : hasKey l k = true
  · rw [if_pos hk]
    exact dLookup_map_upd_ne l k k' v h
  · rw [if_neg hk]
    exact dLookup_append_single_ne l k k' v h

theorem dLookup_dInsert_self (l : List (K × V)) (k : K) (v : V) :
    dLookup (dInsert l k v) k = some v := by
  unfold dInsert
  by_cases h : hasKey l k = true
  · rw [if_pos h]
    induction l with
    | nil => simp [hasKey] at h
    | cons kv t ih =>
      by_cases hkv : kv.1 = k
      · simp [dLookup, hkv]
      · have ht : hasKey t k = true := by
          rw [hasKey_cons] at h
          simpa [hkv] using h
        simpa [dLookup, hkv] using ih ht
  · rw [if_neg h]
    induction l with
    | nil => simp [dLookup]
    | cons kv t ih =>
      have hkv : ¬ kv.1 = k := by
        intro hh
        exact h (by rw [hasKey_cons]; simp [hh])
      have ht : ¬ hasKey t k = true := by
        intro hh
        exact h (by rw [hasKey_cons]; simp [hh])
      simpa [dLookup, hkv] using ih ht

theorem dInsert_length_of_hasKey (l : List (K × V)) (k : K) (v : V)
    (h : hasKey l k = true) : (dInsert l k v).length = l.length := by
  simp [dInsert, h]

theorem dInsert_length_of_not_hasKey (l : List (K × V)) (k : K) (v : V)
    (h : ¬ hasKey l k = true) : (dInsert l k v).length = l.length + 1 := by
  simp [dInsert, h]

end DictLemmas

/-! ### Claim theorems -/

/-- C1: the claim states that on a circular contig `getBorderingGenes(n, m)`
walks outward, wraps from position 0 to the last index, and stops once the
walk returns to its start.  In the source both loop guards read
`pos != 0 and not self.contig.is_circular`, so on a circular contig neither
loop body ever runs (the wrap code at lines 76-77 and 93-94 is unreachable):
on a circular 4-gene contig whose other genes all lie in persistent,
non-multigenic families, the call with n = 6 around the 1-gene region returns
two empty border lists without walking at all. -/
theorem C1_circular_border_walk_skipped :
    circRegion.getBorderingGenes 6 [] = Except.ok ([], []) := rfl

/-- C5: the claim states that `addRegions` on a single Region succeeds and
unions it into the region set.  `Region` has `__getitem__` but no `__iter__`,
so a bare Region fails the `isinstance(regionGroup, Iterable)` test and
reaches `self.regions |= regionGroup`, where in-place set union with a
non-set raises TypeError — contradicting the method docstring, which promises
to accept a Region object. -/
theorem C5_addRegions_single_raises (p : Pangenome) (r : Nat) :
    addRegions p (RegionArg.single r) =
      Except.error "TypeError: unsupported operand types for set in-place union" := rfl

/-- C7: the claim states that `number_of_genes` returns the stored gene count
without failing.  The property evaluates `len(self._genes)`, but no `_genes`
attribute is ever assigned on a `GeneFamily` (see `geneFamilyInstanceAttrs`
and the spec-modelled `MetaFeatures`), so the call raises AttributeError —
here on a family that stores two genes, instead of returning 2. -/
theorem C7_number_of_genes_raises :
    GF.number_of_genes gfFam =
      Except.error "AttributeError: GeneFamily object has no attribute _genes" ∧
    gfFam.genesGetter.length = 2 := by decide

/-- C9: `computeFamilyBitarrays` is idempotent: a successful call leaves a
state whose organism index exists, and every further call returns that state
unchanged (every family bitarray included) without recomputing. -/
theorem C9_computeFamilyBitarrays_idempotent (p q : Pangenome)
    (h : computeFamilyBitarrays p = Except.ok q) :
    computeFamilyBitarrays q = Except.ok q := by
  unfold computeFamilyBitarrays at h ⊢
  split at h
  · next idx hidx =>
    injection h with h2
    subst h2
    rw [hidx]
  · split at h
    · exact absurd h (by simp)
    · next fams hfc =>
      injection h with h2
      subst h2
      rfl

/-- C9 witness: on the one-organism, one-family pangenome the first call
computes bitarray and index, and the second call returns the state
unchanged. -/
theorem C9_computeFamilyBitarrays_idempotent_witness :
    computeFamilyBitarrays pangBitDone = Except.ok pangBitDone :=
  C9_computeFamilyBitarrays_idempotent pangBit pangBitDone rfl

/-- C10: a partition argument outside the four recognised values (all, shell,
cloud, accessory) matches no branch of `mk_bitarray`: the call does not fail
and leaves the freshly zeroed bitarray all-zero, whatever the organisms of
the family. -/
theorem C10_mk_bitarray_unknown_filter (f : GF.GeneFamily) (index : List (Nat × Nat))
    (filt : String) (h1 : filt ≠ "all") (h2 : filt ≠ "shell") (h3 : filt ≠ "cloud")
    (h4 : filt ≠ "accessory") :
    GF.mk_bitarray f index filt = Except.ok [] := by
  unfold GF.mk_bitarray
  rw [if_neg h1, if_neg (by simp [h2, h3]), if_neg h4]

/-- C10 witness: `mk_bitarray(index, "persistent")` on a family present in
organisms 0 and 2 silently produces the all-zero bitarray. -/
theorem C10_mk_bitarray_unknown_filter_witness :
    GF.mk_bitarray gfFam gfIndex "persistent" = Except.ok [] :=
  C10_mk_bitarray_unknown_filter gfFam gfIndex "persistent"
    (by decide) (by decide) (by decide) (by decide)

/-- C3 counterexample: registering a second Organism object under the
already-used name A raises the KeyError, but the organism getter no longer
returns the previously registered object `orgA0` — the entry was overwritten
with the new instance before the raise, so the claim that the getter is left
unchanged is false at this input. -/
theorem C3_addOrganism_counterexample :
    (addOrganism pangA orgA1).1 =
      Except.error "KeyError: Redondant organism name was found" ∧
    ¬ dLookup (addOrganism pangA orgA1).2.orgGetter "A" = some orgA0 := by decide

/-- C3 amended: `addOrganism` on an instance whose name is already registered
fails with the KeyError conflict signal, but only after assigning
`self._orgGetter[name] = newOrg`: afterwards the getter returns the new
instance under that name (entries under other names are untouched). -/
theorem C3_addOrganism_overwrites_before_raise (p : Pangenome) (o old : Organism)
    (h : dLookup p.orgGetter o.name = some old) :
    (addOrganism p o).1 = Except.error "KeyError: Redondant organism name was found" ∧
    dLookup (addOrganism p o).2.orgGetter o.name = some o ∧
    ∀ k, k ≠ o.name → dLookup (addOrganism p o).2.orgGetter k = dLookup p.orgGetter k := by
  have hk : hasKey p.orgGetter o.name = true := hasKey_of_dLookup_some _ _ _ h
  have hlen : (dInsert p.orgGetter o.name o).length = p.orgGetter.length :=
    dInsert_length_of_hasKey _ _ _ hk
  unfold addOrganism
  rw [if_pos hlen]
  refine ⟨rfl, dLookup_dInsert_self _ _ _, ?_⟩
  intro k hkne
  exact dLookup_dInsert_ne _ _ _ _ hkne

/-- C3 amended witness: concrete instantiation on `pangA` and the duplicate
instance `orgA1`. -/
theorem C3_addOrganism_overwrites_before_raise_witness :
    (addOrganism pangA orgA1).1 =
      Except.error "KeyError: Redondant organism name was found" ∧
    dLookup (addOrganism pangA orgA1).2.orgGetter orgA1.name = some orgA1 ∧
    ∀ k, k ≠ orgA1.name →
      dLookup (addOrganism pangA orgA1).2.orgGetter k = dLookup pangA.orgGetter k :=
  C3_addOrganism_overwrites_before_raise pangA orgA1 orgA0 rfl

theorem leftCandidate_sound (c : Contig) (mg : List PFam) (pos : Int) (f : PFam)
    (h : leftCandidate c mg pos = Except.ok (some f)) :
    f ∉ mg ∧ f.namedPartition = Except.ok "persistent" := by
  unfold leftCandidate at h
  cases hlf : leftFam c pos with
  | error e => rw [hlf] at h; exact absurd h (by simp)
  | ok cf =>
    rw [hlf] at h
    cases cf with
    | none => exact absurd h (by simp)
    | some g =>
      dsimp only at h
      by_cases hmg : g ∈ mg
      · rw [if_pos hmg] at h
        exact absurd h (by simp)
      · rw [if_neg hmg] at h
        cases hnp : g.namedPartition with
        | error e => rw [hnp] at h; exact absurd h (by simp)
        | ok np =>
          rw [hnp] at h
          dsimp only at h
          by_cases hp : np = "persistent"
          · rw [if_pos hp] at h
            have hg : g = f := by
              simpa using h
            subst hg
            subst hp
            exact ⟨hmg, hnp⟩
          · rw [if_neg hp] at h
            exact absurd h (by simp)

theorem rightCandidate_sound (c : Contig) (mg : List PFam) (pos : Int) (f : PFam)
    (h : rightCandidate c mg pos = Except.ok (some f)) :
    f ∉ mg := by
  unfold rightCandidate at h
  cases hrf : rightFam c pos with
  | error e => rw [hrf] at h; exact absurd h (by simp)
  | ok cf =>
    rw [hrf] at h
    cases cf with
    | none => exact absurd h (by simp)
    | some g =>
      dsimp only at h
      by_cases hmg : g ∈ mg
      · rw [if_pos hmg] at h
        exact absurd h (by simp)
      · rw [if_neg hmg] at h
        have hg : g = f := by simpa using h
        subst hg
        exact hmg

theorem appendCand_sound (P : PFam → Prop) (acc : List PFam) (cand : Option PFam)
    (hacc : ∀ f ∈ acc, P f) (hcand : ∀ f, cand = some f → P f) :
    ∀ f ∈ appendCand acc cand, P f := by
  intro f hf
  cases cand with
  | none => exact hacc f hf
  | some g =>
    unfold appendCand at hf
    rcases List.mem_append.mp hf with hmem | hmem
    · exact hacc f hmem
    · have : f = g := by simpa using hmem
      subst this
      exact hcand f rfl

theorem borderLoopL_filter (c : Contig) (n : Nat) (mg : List PFam) (init : Int) :
    ∀ (fuel : Nat) (pos : Int) (acc res : List PFam),
      (∀ f ∈ acc, f ∉ mg ∧ f.namedPartition = Except.ok "persistent") →
      borderLoopL c n mg init fuel pos acc = Except.ok res →
      ∀ f ∈ res, f ∉ mg ∧ f.namedPartition = Except.ok "persistent" := by
  intro fuel
  induction fuel with
  | zero =>
    intro pos acc res hacc h
    unfold borderLoopL at h
    split at h
    · exact absurd h (by simp)
    · have : acc = res := by simpa using h
      subst this
      exact hacc
  | succ fuel' ih =>
    intro pos acc res hacc h
    unfold borderLoopL at h
    split at h
    · cases hc : leftCandidate c mg pos with
      | error e => rw [hc] at h; exact absurd h (by simp)
      | ok cand =>
        rw [hc] at h
        dsimp only at h
        have hstep : ∀ f ∈ appendCand acc cand,
            f ∉ mg ∧ f.namedPartition = Except.ok "persistent" := by
          refine appendCand_sound _ acc cand hacc ?_
          intro f hcf
          subst hcf
          exact leftCandidate_sound c mg pos f hc
        by_cases hbrk : wrapL c pos = init
        · rw [if_pos hbrk] at h
          have : appendCand acc cand = res := by simpa using h
          subst this
          exact hstep
        · rw [if_neg hbrk] at h
          exact ih (wrapL c pos) (appendCand acc cand) res hstep h
    · have : acc = res := by simpa using h
      subst this
      exact hacc

theorem borderLoopR_filter (c : Contig) (n : Nat) (mg : List PFam) (init : Int) :
    ∀ (fuel : Nat) (pos : Int) (acc res : List PFam),
      (∀ f ∈ acc, f ∉ mg) →
      borderLoopR c n mg init fuel pos acc = Except.ok res →
      ∀ f ∈ res, f ∉ mg := by
  intro fuel
  induction fuel with
  | zero =>
    intro pos acc res hacc h
    unfold borderLoopR at h
    split at h
    · exact absurd h (by simp)
    · have : acc = res := by simpa using h
      subst this
      exact hacc
  | succ fuel' ih =>
    intro pos acc res hacc h
    unfold borderLoopR at h
    split at h
    · cases hc : rightCandidate c mg pos with
      | error e => rw [hc] at h; exact absurd h (by simp)
      | ok cand =>
        rw [hc] at h
        dsimp only at h
        have hstep : ∀ f ∈ appendCand acc cand, f ∉ mg := by
          refine appendCand_sound _ acc cand hacc ?_
          intro f hcf
          subst hcf
          exact rightCandidate_sound c mg pos f hc
        by_cases hbrk : wrapR c pos = init
        · rw [if_pos hbrk] at h
          exact absurd h (by simp)
        · rw [if_neg hbrk] at h
          exact ih (wrapR c pos) (appendCand acc cand) res hstep h
    · have : acc = res := by simpa using h
      subst this
      exact hacc

/-- C2: whenever `getBorderingGenes` returns, every family of the left border
list is outside `multigenics` and has named partition exactly persistent,
while every family of the right border list is merely outside `multigenics`
(the source applies no partition test on the right side, line 90 versus
line 73). -/
theorem C2_border_filters (r : Region) (n : Nat) (mg : List PFam)
    (lb rb : List PFam)
    (h : r.getBorderingGenes n mg = Except.ok (lb, rb)) :
    (∀ f ∈ lb, f ∉ mg ∧ f.namedPartition = Except.ok "persistent") ∧
    (∀ f ∈ rb, f ∉ mg) := by
  unfold Region.getBorderingGenes at h
  cases hlast : r.genes.getLast? with
  | none => rw [hlast] at h; exact absurd h (by simp)
  | some glast =>
    rw [hlast] at h
    dsimp only at h
    cases hbl : borderLoopL r.contig n mg (glast.position : Int)
        (r.contig.genes.length + n + 2) (glast.position : Int) [] with
    | error e => rw [hbl] at h; exact absurd h (by simp)
    | ok leftRes =>
      rw [hbl] at h
      dsimp only at h
      cases hhead : r.genes.head? with
      | none => rw [hhead] at h; exact absurd h (by simp)
      | some gfirst =>
        rw [hhead] at h
        dsimp only at h
        cases hbr : borderLoopR r.contig n mg (gfirst.position : Int)
            (r.contig.genes.length + n + 2) (gfirst.position : Int) [] with
        | error e => rw [hbr] at h; exact absurd h (by simp)
        | ok rightRes =>
          rw [hbr] at h
          dsimp only at h
          injection h with h2
          injection h2 with hL hR
          subst hL
          subst hR
          exact ⟨borderLoopL_filter r.contig n mg _ _ _ _ _ (by simp) hbl,
                 borderLoopR_filter r.contig n mg _ _ _ _ _ (by simp) hbr⟩

/-- C2 witness: on the linear 4-gene contig, the walk around the region at
positions 2-1 collects the persistent family 0 on the left and the cloud (but
non-multigenic) family 3 on the right, and both returned lists satisfy the
filter conditions. -/
theorem C2_border_filters_witness :
    (∀ f ∈ [famP 0], f ∉ ([] : List PFam) ∧
      f.namedPartition = Except.ok "persistent") ∧
    (∀ f ∈ [famC3], f ∉ ([] : List PFam)) :=
  C2_border_filters linRegion 2 [] [famP 0] [famC3] rfl

theorem mem_registerNeighbor_self (fe : List (Nat × List Nat)) (f nb : Nat) :
    nb ∈ neighborList (registerNeighbor fe f nb) f := by
  unfold registerNeighbor neighborList
  cases hl : dLookup fe f with
  | none =>
    rw [dLookup_dInsert_self]
    simp
  | some l =>
    rw [dLookup_dInsert_self]
    by_cases hnb : nb ∈ l <;> simp [hnb]

theorem registerNeighbor_other (fe : List (Nat × List Nat)) (f nb g : Nat)
    (h : g ≠ f) :
    neighborList (registerNeighbor fe f nb) g = neighborList fe g := by
  unfold registerNeighbor neighborList
  cases dLookup fe f <;> rw [dLookup_dInsert_ne _ _ _ _ h]

/-- C4 counterexample: from the empty graph state, `addEdge` on genes of two
different organisms (families 10 and 20 assigned) raises, yet family 10's
edge map afterwards contains the neighbor entry for family 20 — the claim
that neither family's edge map retains a new edge is false at this input. -/
theorem C4_addEdge_counterexample :
    (addEdge st0 gX gY).1 =
      Except.error "Exception: edge between two genes that are not in the same organism" ∧
    20 ∈ neighborList (addEdge st0 gX gY).2.famEdges 10 := by decide

/-- C4 amended: building an edge between genes of two different organisms
(both with families, no edge yet under that family pair) always fails, and
the pangenome edge getter is indeed left unchanged; however the exception is
raised only after `Edge.__init__` has registered the edge on both families
edge maps (lines 108-109 precede the `addGenes` organism check of line 122),
so both maps retain the new neighbor entry. -/
theorem C4_addEdge_cross_organism (st : GraphState) (g1 g2 : PGene) (a b : Nat)
    (hf1 : g1.fam = some a) (hf2 : g2.fam = some b) (horg : g1.org ≠ g2.org)
    (hnew : dLookup st.edgeGetter ({g1.fam, g2.fam} : Finset (Option Nat)) = none) :
    (addEdge st g1 g2).1 =
      Except.error "Exception: edge between two genes that are not in the same organism" ∧
    (addEdge st g1 g2).2.edgeGetter = st.edgeGetter ∧
    b ∈ neighborList (addEdge st g1 g2).2.famEdges a ∧
    a ∈ neighborList (addEdge st g1 g2).2.famEdges b := by
  unfold addEdge
  rw [hnew]
  dsimp only
  unfold edgeInit
  rw [hf1, hf2]
  dsimp only
  rw [if_pos horg]
  dsimp only
  refine ⟨rfl, rfl, ?_, ?_⟩
  · by_cases hab : a = b
    · subst hab
      exact mem_registerNeighbor_self _ _ _
    · rw [registerNeighbor_other _ _ _ _ hab]
      exact mem_registerNeighbor_self _ _ _
  · exact mem_registerNeighbor_self _ _ _

/-- C4 amended witness: concrete cross-organism failure on the empty state,
with the getter unchanged and both family edge maps mutated. -/
theorem C4_addEdge_cross_organism_witness :
    (addEdge st0 gX gY).1 =
      Except.error "Exception: edge between two genes that are not in the same organism" ∧
    (addEdge st0 gX gY).2.edgeGetter = st0.edgeGetter ∧
    20 ∈ neighborList (addEdge st0 gX gY).2.famEdges 10 ∧
    10 ∈ neighborList (addEdge st0 gX gY).2.famEdges 20 :=
  C4_addEdge_cross_organism st0 gX gY 10 20 rfl rfl (by decide) rfl

theorem not_hasKey_of_dLookup_none {K V : Type} [DecidableEq K]
    (l : List (K × V)) (k : K) (h : dLookup l k = none) : ¬ hasKey l k = true := by
  induction l with
  | nil => simp [hasKey]
  | cons kv t ih =>
    rw [hasKey_cons]
    by_cases hkv : kv.1 = k
    · rw [dLookup] at h
      rw [if_pos hkv] at h
      exact absurd h (by simp)
    · rw [dLookup] at h
      rw [if_neg hkv] at h
      simpa [hkv] using ih h

/-- C8: `add_edge(g1, g2)` followed by `add_edge(g2, g1)` on two genes of the
same organism with assigned families, starting from a state with no edge for
that family pair: the unordered frozenset key makes the second call find the
edge created by the first, so exactly one new edge-getter entry exists and the
edge records exactly the two gene pairs, in call order. -/
theorem C8_addEdge_swapped_single_edge (st : GraphState) (g1 g2 : PGene) (a b : Nat)
    (hf1 : g1.fam = some a) (hf2 : g2.fam = some b) (horg : g1.org = g2.org)
    (hnew : dLookup st.edgeGetter ({g1.fam, g2.fam} : Finset (Option Nat)) = none) :
    ∃ e : EdgeObj,
      dLookup (addEdge (addEdge st g1 g2).2 g2 g1).2.edgeGetter
          ({g1.fam, g2.fam} : Finset (Option Nat)) = some e ∧
      e.genePairs = [(g1.gid, g2.gid), (g2.gid, g1.gid)] ∧
      (addEdge (addEdge st g1 g2).2 g2 g1).2.edgeGetter.length =
        st.edgeGetter.length + 1 := by
  obtain ⟨gid1, o1, f1⟩ := g1
  obtain ⟨gid2, o2, f2⟩ := g2
  dsimp only at hf1 hf2 horg hnew ⊢
  subst hf1
  subst hf2
  subst horg
  have h1 : addEdge st ⟨gid1, o1, some a⟩ ⟨gid2, o1, some b⟩ =
      (Except.ok ⟨a, b, [(o1, [(gid1, gid2)])]⟩,
       ⟨dInsert st.edgeGetter ({some a, some b} : Finset (Option Nat))
          ⟨a, b, [(o1, [(gid1, gid2)])]⟩,
        registerNeighbor (registerNeighbor st.famEdges a b) b a⟩) := by
    unfold addEdge
    rw [hnew]
    dsimp only
    unfold edgeInit
    dsimp only
    rw [if_neg (fun hh => hh rfl)]
  have hlk1 : dLookup
      (dInsert st.edgeGetter ({some a, some b} : Finset (Option Nat))
        (⟨a, b, [(o1, [(gid1, gid2)])]⟩ : EdgeObj))
      ({some a, some b} : Finset (Option Nat)) =
      some ⟨a, b, [(o1, [(gid1, gid2)])]⟩ := dLookup_dInsert_self _ _ _
  have h2 : addEdge
      (⟨dInsert st.edgeGetter ({some a, some b} : Finset (Option Nat))
          ⟨a, b, [(o1, [(gid1, gid2)])]⟩,
        registerNeighbor (registerNeighbor st.famEdges a b) b a⟩ : GraphState)
      ⟨gid2, o1, some b⟩ ⟨gid1, o1, some a⟩ =
      (Except.ok ⟨a, b, [(o1, [(gid1, gid2), (gid2, gid1)])]⟩,
       ⟨dInsert
          (dInsert st.edgeGetter ({some a, some b} : Finset (Option Nat))
            ⟨a, b, [(o1, [(gid1, gid2)])]⟩)
          ({some a, some b} : Finset (Option Nat))
          ⟨a, b, [(o1, [(gid1, gid2), (gid2, gid1)])]⟩,
        registerNeighbor (registerNeighbor st.famEdges a b) b a⟩) := by
    unfold addEdge
    rw [Finset.pair_comm (some b) (some a)]
    dsimp only
    rw [hlk1]
    dsimp only
    unfold EdgeObj.addGenes
    rw [if_neg (fun hh => hh rfl)]
    dsimp only
    have hpairs : orgPairsAppend [(o1, [(gid1, gid2)])] o1 (gid2, gid1) =
        [(o1, [(gid1, gid2), (gid2, gid1)])] := by
      unfold orgPairsAppend
      rw [show dLookup [(o1, [(gid1, gid2)])] o1 = some [(gid1, gid2)] from by
        rw [dLookup]
        rw [if_pos rfl]]
      unfold dInsert hasKey
      simp
    rw [hpairs]
  rw [h1]
  dsimp only
  rw [h2]
  dsimp only
  refine ⟨⟨a, b, [(o1, [(gid1, gid2), (gid2, gid1)])]⟩, dLookup_dInsert_self _ _ _, rfl, ?_⟩
  rw [dInsert_length_of_hasKey _ _ _ (hasKey_of_dLookup_some _ _ _ hlk1)]
  rw [dInsert_length_of_not_hasKey _ _ _ (not_hasKey_of_dLookup_none _ _ hnew)]

/-- C8 witness: concrete same-organism genes 1 and 2 (families 10 and 20) on
the empty state: one edge under the unordered key, holding both pairs. -/
theorem C8_addEdge_swapped_single_edge_witness :
    ∃ e : EdgeObj,
      dLookup (addEdge (addEdge st0 gX gB).2 gB gX).2.edgeGetter
          ({gX.fam, gB.fam} : Finset (Option Nat)) = some e ∧
      e.genePairs = [(gX.gid, gB.gid), (gB.gid, gX.gid)] ∧
      (addEdge (addEdge st0 gX gB).2 gB gX).2.edgeGetter.length =
        st0.edgeGetter.length + 1 :=
  C8_addEdge_swapped_single_edge st0 gX gB 10 20 rfl rfl rfl rfl

theorem dLookup_mem_snd {K V : Type} [DecidableEq K] (l : List (K × V)) (k : K) (v : V)
    (h : dLookup l k = some v) : v ∈ l.map Prod.snd := by
  induction l with
  | nil => simp [dLookup] at h
  | cons kv t ih =>
    rw [dLookup] at h
    by_cases hkv : kv.1 = k
    · rw [if_pos hkv] at h
      injection h with h2
      subst h2
      simp
    · rw [if_neg hkv] at h
      simp [ih h]

theorem dLookup_inj_of_nodup_values {K V : Type} [DecidableEq K] :
    ∀ l : List (K × V), (l.map Prod.snd).Nodup → ∀ (k1 k2 : K) (v : V),
      dLookup l k1 = some v → dLookup l k2 = some v → k1 = k2 := by
  intro l
  induction l with
  | nil =>
    intro _ k1 k2 v h1 _
    simp [dLookup] at h1
  | cons kv t ih =>
    intro hnd k1 k2 v h1 h2
    rw [List.map_cons, List.nodup_cons] at hnd
    rw [dLookup] at h1 h2
    by_cases hk1 : kv.1 = k1 <;> by_cases hk2 : kv.1 = k2
    · rw [← hk1]
      exact hk2
    · rw [if_pos hk1] at h1
      rw [if_neg hk2] at h2
      injection h1 with hv
      subst hv
      exact absurd (dLookup_mem_snd t k2 _ h2) hnd.1
    · rw [if_neg hk1] at h1
      rw [if_pos hk2] at h2
      injection h2 with hv
      subst hv
      exact absurd (dLookup_mem_snd t k1 _ h1) hnd.1
    · rw [if_neg hk1] at h1
      rw [if_neg hk2] at h2
      exact ih hnd.2 k1 k2 v h1 h2

theorem orgBits_mem (index : List (Nat × Nat)) :
    ∀ os ba : List Nat, GF.orgBits index os = Except.ok ba →
      ∀ p, p ∈ ba ↔ ∃ o, o ∈ os ∧ dLookup index o = some p := by
  intro os
  induction os with
  | nil =>
    intro ba h p
    unfold GF.orgBits at h
    have hba : ([] : List Nat) = ba := by simpa using h
    subst hba
    simp
  | cons o t ih =>
    intro ba h p
    unfold GF.orgBits at h
    cases hl : dLookup index o with
    | none =>
      rw [hl] at h
      exact absurd h (by simp)
    | some i =>
      rw [hl] at h
      dsimp only at h
      cases ht : GF.orgBits index t with
      | error e =>
        rw [ht] at h
        exact absurd h (by simp)
      | ok rest =>
        rw [ht] at h
        dsimp only at h
        have hba : i :: rest = ba := by simpa using h
        subst hba
        constructor
        · intro hp
          rcases List.mem_cons.mp hp with hp | hp
          · exact ⟨o, List.mem_cons_self o t, by rw [hl, hp]⟩
          · obtain ⟨o2, ho2, hlo2⟩ := (ih rest ht p).mp hp
            exact ⟨o2, List.mem_cons_of_mem o ho2, hlo2⟩
        · rintro ⟨o2, ho2, hlo2⟩
          rcases List.mem_cons.mp ho2 with rfl | ho2
          · rw [hl] at hlo2
            injection hlo2 with hv
            exact List.mem_cons.mpr (Or.inl hv.symm)
          · exact List.mem_cons.mpr (Or.inr ((ih rest ht p).mpr ⟨o2, ho2, hlo2⟩))

theorem bits_agree (index : List (Nat × Nat)) (os ba gs : List Nat)
    (h_agree : os.toFinset = gs.toFinset)
    (h_inj : (index.map Prod.snd).Nodup)
    (h : GF.orgBits index os = Except.ok ba) :
    (∀ org p, dLookup index org = some p → (p ∈ ba ↔ org ∈ gs)) ∧
    (∀ p, p ∈ ba → ∃ org, dLookup index org = some p) := by
  have hmem : ∀ o : Nat, o ∈ os ↔ o ∈ gs := by
    intro o
    rw [← List.mem_toFinset, h_agree, List.mem_toFinset]
  constructor
  · intro org p hop
    rw [orgBits_mem index os ba h p]
    constructor
    · rintro ⟨o, ho, hlo⟩
      have heq : o = org := dLookup_inj_of_nodup_values index h_inj o org p hlo hop
      subst heq
      exact (hmem o).mp ho
    · intro hg
      exact ⟨org, (hmem org).mpr hg, hop⟩
  · intro p hp
    obtain ⟨o, _, hlo⟩ := (orgBits_mem index os ba h p).mp hp
    exact ⟨o, hlo⟩

theorem mkbits_ok_conclusion (f : GF.GeneFamily) (index : List (Nat × Nat))
    (filt : String) (os ba : List Nat)
    (h_agree : os.toFinset = (GF.geneOrgs f).toFinset)
    (h_inj : (index.map Prod.snd).Nodup)
    (h : GF.orgBits index os = Except.ok ba)
    (hfm : GF.filterMatch f filt = true) :
    (∀ org p, dLookup index org = some p →
      (p ∈ ba ↔ (org ∈ GF.geneOrgs f ∧ GF.filterMatch f filt = true))) ∧
    (∀ p, p ∈ ba → ∃ org, dLookup index org = some p) := by
  obtain ⟨hbits, hcover⟩ := bits_agree index os ba (GF.geneOrgs f) h_agree h_inj h
  refine ⟨?_, hcover⟩
  intro org p hop
  rw [hbits org p hop, hfm]
  simp

theorem mkbits_empty_conclusion (f : GF.GeneFamily) (index : List (Nat × Nat))
    (filt : String)
    (hfm : GF.filterMatch f filt = false) :
    (∀ org p, dLookup index org = some p →
      (p ∈ ([] : List Nat) ↔ (org ∈ GF.geneOrgs f ∧ GF.filterMatch f filt = true))) ∧
    (∀ p, p ∈ ([] : List Nat) → ∃ org, dLookup index org = some p) := by
  constructor
  · intro org p _
    simp [hfm]
  · intro p hp
    simp at hp

/-- C6: when `mk_bitarray(index, filter)` succeeds, the bit at position
`index[org]` is 1 exactly when the family has at least one gene in `org` and
matches the filter (all: always; shell and cloud: named partition equals the
filter; accessory: named partition is shell or cloud), and no position outside
the range of the index is ever set.  Hypotheses: the index is injective (as
`getIndex` builds it) and the family organisms view agrees with the genes the
family actually stores (a fresh or faithfully maintained `_genePerOrg`
cache). -/
theorem C6_mk_bitarray_bits (f : GF.GeneFamily) (index : List (Nat × Nat))
    (filt : String) (os ba : List Nat)
    (h_orgs : GF.organisms f = Except.ok os)
    (h_agree : os.toFinset = (GF.geneOrgs f).toFinset)
    (h_inj : (index.map Prod.snd).Nodup)
    (h_ok : GF.mk_bitarray f index filt = Except.ok ba) :
    (∀ org p, dLookup index org = some p →
      (p ∈ ba ↔ (org ∈ GF.geneOrgs f ∧ GF.filterMatch f filt = true))) ∧
    (∀ p, p ∈ ba → ∃ org, dLookup index org = some p) := by
  unfold GF.mk_bitarray at h_ok
  by_cases hall : filt = "all"
  · subst hall
    rw [if_pos rfl] at h_ok
    rw [h_orgs] at h_ok
    dsimp only at h_ok
    exact mkbits_ok_conclusion f index "all" os ba h_agree h_inj h_ok (by rfl)
  · rw [if_neg hall] at h_ok
    by_cases hsc : filt = "shell" ∨ filt = "cloud"
    · rw [if_pos hsc] at h_ok
      cases hnp : GF.named_partition f with
      | error e =>
        rw [hnp] at h_ok
        exact absurd h_ok (by simp)
      | ok np =>
        rw [hnp] at h_ok
        dsimp only at h_ok
        by_cases hm : np = filt
        · subst hm
          rw [if_pos rfl] at h_ok
          rw [h_orgs] at h_ok
          dsimp only at h_ok
          refine mkbits_ok_conclusion f index np os ba h_agree h_inj h_ok ?_
          unfold GF.filterMatch
          rw [if_neg hall, if_pos hsc, hnp]
          simp
        · rw [if_neg hm] at h_ok
          have hba : ([] : List Nat) = ba := by simpa using h_ok
          subst hba
          refine mkbits_empty_conclusion f index filt ?_
          unfold GF.filterMatch
          rw [if_neg hall, if_pos hsc, hnp]
          simp [hm]
    · rw [if_neg hsc] at h_ok
      by_cases hacc : filt = "accessory"
      · subst hacc
        rw [if_pos rfl] at h_ok
        cases hnp : GF.named_partition f with
        | error e =>
          rw [hnp] at h_ok
          exact absurd h_ok (by simp)
        | ok np =>
          rw [hnp] at h_ok
          dsimp only at h_ok
          by_cases hm : np = "shell" ∨ np = "cloud"
          · rw [if_pos hm] at h_ok
            rw [h_orgs] at h_ok
            dsimp only at h_ok
            refine mkbits_ok_conclusion f index "accessory" os ba h_agree h_inj h_ok ?_
            unfold GF.filterMatch
            rw [if_neg hall, if_neg hsc, if_pos rfl, hnp]
            rcases hm with rfl | rfl <;> simp
          · rw [if_neg hm] at h_ok
            have hba : ([] : List Nat) = ba := by simpa using h_ok
            subst hba
            refine mkbits_empty_conclusion f index "accessory" ?_
            unfold GF.filterMatch
            rw [if_neg hall, if_neg hsc, if_pos rfl, hnp]
            obtain ⟨hm1, hm2⟩ := not_or.mp hm
            simp [hm1, hm2]
      · rw [if_neg hacc] at h_ok
        have hba : ([] : List Nat) = ba := by simpa using h_ok
        subst hba
        refine mkbits_empty_conclusion f index filt ?_
        unfold GF.filterMatch
        rw [if_neg hall, if_neg hsc, if_neg hacc]

/-- C6 witness: the spec example — index mapping organisms 0, 1, 2 to bits 0,
1, 2, and a family present in organisms 0 and 2: bits 0 and 2 are set, bit 1
is clear, and only indexed positions appear. -/
theorem C6_mk_bitarray_bits_witness :
    (∀ org p, dLookup gfIndex org = some p →
      (p ∈ [0, 2] ↔ (org ∈ GF.geneOrgs gfFam ∧ GF.filterMatch gfFam "all" = true))) ∧
    (∀ p, p ∈ [0, 2] → ∃ org, dLookup gfIndex org = some p) :=
  C6_mk_bitarray_bits gfFam gfIndex "all" [0, 2] [0, 2] rfl (by decide) (by decide) rfl

end PPanGGOLiN
